import Mathlib

/-!
Shallow embedding of the `pappardelle` status hooks.

The embedded code is `src/hooks/update-status.py` (functions
`get_workspace_name`, `get_status_dir`, `update_status`, `main`) and the
resolver `get_issue_key` of `src/hooks/post-plan-to-tracker.py`.

Modelling conventions:
- Python strings are Lean `String`s; the single-character splits
  (`cwd.split("/")`, `part.split("-")`, `part.split("-", 1)`) are modelled
  by structurally recursive functions on the character list so that closed
  instances reduce in the kernel.
- Python's `str.isupper` / `str.isalpha` / `str.isdigit` are modelled over
  ASCII character classes (the repository only ever deals in ASCII path
  segments and branch names).
- `subprocess.run` of the two git queries is modelled by a `GitEnv` record:
  `none` stands for an exception (including timeout) or a non-zero exit
  status, `some out` for exit status 0 with stdout `out`.
- environment variables are a record `Env`; reading stdin is modelled by
  `StdinContent`, where `malformed` covers empty or non-JSON input (the
  code turns a `json.JSONDecodeError` into the empty object).
- writing the status file is modelled as a `WriteEffect` value (the
  directory ensured by `mkdir`, the file path, and the JSON-serialisable
  record); the status store is a map from file path to record, written by
  whole-record replacement.
-/

namespace Pappardelle

/-- Python `c in s` for a single character. -/
def containsChar (c : Char) (s : String) : Bool := s.data.contains c

/-- Characters before the first occurrence of `sep`: Python `s.split(sep)[0]`. -/
def beforeFirst (sep : Char) : List Char → List Char
  | [] => []
  | c :: cs => if c = sep then [] else c :: beforeFirst sep cs

/-- Characters after the first occurrence of `sep`: Python `s.split(sep, 1)[1]`
when `sep` occurs in `s`. -/
def afterFirst (sep : Char) : List Char → List Char
  | [] => []
  | c :: cs => if c = sep then cs else afterFirst sep cs

/-- Python `s.split(sep)` for a single-character separator, on char lists. -/
def splitCharAux (sep : Char) : List Char → List (List Char)
  | [] => [[]]
  | c :: cs =>
    if c = sep then [] :: splitCharAux sep cs
    else
      match splitCharAux sep cs with
      | [] => [[c]]
      | g :: gs => (c :: g) :: gs

/-- Python `s.split(sep)` for a single-character separator. -/
def splitChar (sep : Char) (s : String) : List String :=
  (splitCharAux sep s.data).map fun cs => ⟨cs⟩

/-- Python `str.isupper`: at least one cased character, and no lowercase one. -/
def pyIsUpper (cs : List Char) : Bool :=
  cs.any (fun c => c.isUpper || c.isLower) && cs.all (fun c => !c.isLower)

/-- Python `str.isalpha`: nonempty and all alphabetic. -/
def pyIsAlpha (cs : List Char) : Bool :=
  !cs.isEmpty && cs.all Char.isAlpha

/-- Python `str.isdigit`: nonempty and all digits. -/
def pyIsDigit (cs : List Char) : Bool :=
  !cs.isEmpty && cs.all Char.isDigit

/-- Python `str.strip()`: drop whitespace from both ends. -/
def pyStrip (s : String) : String :=
  ⟨((s.data.dropWhile Char.isWhitespace).reverse.dropWhile Char.isWhitespace).reverse⟩

/-- Python `os.path.basename`: everything after the last `/`. -/
def basename (p : String) : String :=
  (splitChar '/' p).getLastD ""

/-- Issue-key test applied to one path segment by `get_workspace_name`
(update-status.py lines 56-62): the segment is nonempty, contains a hyphen,
the part before the first hyphen is uppercase and alphabetic, and the part
after the first hyphen is numeric.  There is no minimum length on the part
before the hyphen. -/
def isIssueSegmentStatus (part : String) : Bool :=
  !part.data.isEmpty && containsChar '-' part &&
    (pyIsUpper (beforeFirst '-' part.data) && pyIsAlpha (beforeFirst '-' part.data) &&
      pyIsDigit (afterFirst '-' part.data))

/-- Issue-key test applied to one path segment by `get_issue_key`
(post-plan-to-tracker.py lines 35-40): as `isIssueSegmentStatus`, but the
part before the first hyphen must additionally have length at least 2. -/
def isIssueSegmentPlan (part : String) : Bool :=
  !part.data.isEmpty && containsChar '-' part &&
    (2 ≤ (beforeFirst '-' part.data).length && pyIsUpper (beforeFirst '-' part.data) &&
      pyIsAlpha (beforeFirst '-' part.data) && pyIsDigit (afterFirst '-' part.data))

/-- Outcome of the two git subprocess queries run by `get_workspace_name`:
`none` models an exception (timeout included) or a non-zero exit status,
`some out` models exit status 0 with stdout `out`. -/
structure GitEnv where
  branch : Option String
  toplevel : Option String
deriving DecidableEq

/-- Fallback naming of `get_workspace_name` (update-status.py lines 67-96)
when no path segment matches: branch query failed → `"unknown"`; branch
empty after strip → `"unknown"`; toplevel query failed or its basename
empty → branch alone; otherwise `<repo-basename>-<branch>`. -/
def gitFallbackName (git : GitEnv) : String :=
  match git.branch with
  | none => "unknown"
  | some out =>
    let branch := pyStrip out
    if branch.data.isEmpty then "unknown"
    else
      match git.toplevel with
      | none => branch
      | some tout =>
        let repoName := basename (pyStrip tout)
        if repoName.data.isEmpty then branch else repoName ++ "-" ++ branch

/-- `get_workspace_name` of update-status.py: scan the `/`-separated
segments of the working directory root-to-leaf for the first issue-shaped
segment; fall back to git-derived naming. -/
def get_workspace_name (cwd : String) (git : GitEnv) : String :=
  match (splitChar '/' cwd).find? isIssueSegmentStatus with
  | some part => part
  | none => gitFallbackName git

/-- `get_issue_key` of post-plan-to-tracker.py: scan the segments
leaf-to-root (Python `reversed(parts)`) for the first segment matching the
plan hook's issue test; `none` when no segment matches. -/
def get_issue_key (cwd : String) : Option String :=
  (splitChar '/' cwd).reverse.find? isIssueSegmentPlan

/-- Process environment as read by update-status.py. -/
structure Env where
  pappardelle_status_dir : Option String
  claude_session_id : Option String
  home : String
deriving DecidableEq

/-- `get_status_dir` of update-status.py: `PAPPARDELLE_STATUS_DIR` when set
and nonempty (Python truthiness), else `~/.pappardelle/claude-status`. -/
def get_status_dir (env : Env) : String :=
  match env.pappardelle_status_dir with
  | some d => if d.data.isEmpty then env.home ++ "/.pappardelle/claude-status" else d
  | none => env.home ++ "/.pappardelle/claude-status"

/-- Python `if x: state[k] = x` for an optional string: kept only when
present and nonempty. -/
def truthyOpt : Option String → Option String
  | some s => if s.data.isEmpty then none else some s
  | none => none

/-- Python `x or dflt` for an optional string. -/
def orDefault (o : Option String) (dflt : String) : String :=
  match o with
  | some s => if s.data.isEmpty then dflt else s
  | none => dflt

/-- The JSON-serialisable state written by `update_status`. -/
structure StatusRecord where
  sessionId : String
  workspaceName : String
  status : String
  lastUpdate : Nat
  currentTool : Option String
  event : Option String
  cwd : Option String
deriving DecidableEq

/-- Observable filesystem effect of one `update_status` call: the directory
guaranteed to exist by `mkdir(parents=True, exist_ok=True)`, the file
written, and the record serialised into it. -/
structure WriteEffect where
  ensuredDir : String
  file : String
  record : StatusRecord
deriving DecidableEq

/-- `update_status` of update-status.py (lines 110-138): resolve the
workspace, ensure the status directory, and write the assembled record to
`<dir>/<workspace>.json`, replacing any previous content. -/
def update_status (now : Nat) (env : Env) (git : GitEnv) (osCwd : String)
    (status : String) (tool_name session_id event cwd : Option String) : WriteEffect :=
  let workspace := get_workspace_name osCwd git
  let dir := get_status_dir env
  { ensuredDir := dir
    file := dir ++ "/" ++ workspace ++ ".json"
    record :=
      { sessionId := orDefault session_id (env.claude_session_id.getD "unknown")
        workspaceName := workspace
        status := status
        lastUpdate := now
        currentTool := truthyOpt tool_name
        event := truthyOpt event
        cwd := truthyOpt cwd } }

/-- Recognised fields of the JSON object on stdin. -/
structure StdinData where
  hook_event_name : Option String
  tool_name : Option String
  notification_type : Option String
  session_id : Option String
  cwd : Option String
deriving DecidableEq

/-- Raw stdin: `malformed` covers empty input and JSON parse failures. -/
inductive StdinContent where
  | malformed
  | parsed (d : StdinData)
deriving DecidableEq

/-- The `try: json.load(sys.stdin) except: {}` prologue of `main`. -/
def readStdin : StdinContent → StdinData
  | .malformed => ⟨none, none, none, none, none⟩
  | .parsed d => d

/-- The event-to-status chain of `main` (update-status.py lines 161-193):
`some s` means status `s` is written, `none` means the event is ignored
(the script exits 0 without writing). -/
def derive_status (hook_event : String) (notification_type : Option String) :
    Option String :=
  if hook_event = "UserPromptSubmit" then some "processing"
  else if hook_event = "PreToolUse" then some "running_tool"
  else if hook_event = "PostToolUse" then some "processing"
  else if hook_event = "PermissionRequest" then some "waiting_for_approval"
  else if hook_event = "Stop" then some "waiting_for_input"
  else if hook_event = "SubagentStop" then some "waiting_for_input"
  else if hook_event = "SessionStart" then some "waiting_for_input"
  else if hook_event = "SessionEnd" then some "ended"
  else if hook_event = "PreCompact" then some "compacting"
  else if hook_event = "Notification" then
    if notification_type = some "permission_prompt" then none
    else if notification_type = some "idle_prompt" then some "waiting_for_input"
    else none
  else none

/-- Python `list.index` guarded by `in`: index of the first occurrence. -/
def listIndexOf (l : List String) (x : String) : Option Nat :=
  match l with
  | [] => none
  | a :: rest => if a = x then some 0 else (listIndexOf rest x).map (· + 1)

/-- The `--tool` parsing of `main` (lines 154-157): only when `"--tool"`
occurs in `argv` and is followed by another argument. -/
def parse_tool_arg (argv : List String) : Option String :=
  match listIndexOf argv "--tool" with
  | some i => argv[i + 1]?
  | none => none

/-- Result of one invocation: either no status file is touched, or exactly
one write happens.  Every path of the script exits with status 0. -/
inductive MainOutcome where
  | noWrite
  | wrote (eff : WriteEffect)
deriving DecidableEq

/-- `main` of update-status.py: read stdin, take the status from `argv[1]`
when present (override path) else derive it from the hook event, and write
the record; ignored events produce no write. -/
def main (argv : List String) (stdinC : StdinContent) (env : Env) (git : GitEnv)
    (osCwd : String) (now : Nat) : MainOutcome :=
  let input_data := readStdin stdinC
  let sid :=
    match input_data.session_id with
    | some s => some s
    | none => env.claude_session_id
  let ev := input_data.hook_event_name
  let cw := input_data.cwd
  if 1 < argv.length then
    let status := (argv[1]?).getD ""
    let tool_name := parse_tool_arg argv
    .wrote (update_status now env git osCwd status tool_name sid ev cw)
  else
    let hook_event := input_data.hook_event_name.getD ""
    let tool_name := input_data.tool_name
    match derive_status hook_event input_data.notification_type with
    | some status => .wrote (update_status now env git osCwd status tool_name sid ev cw)
    | none => .noWrite

/-- The status store: one record per file path. -/
def Store := String → Option StatusRecord

/-- Whole-file replacement performed by `json.dump` over `open(..., "w")`. -/
def applyWrite (st : Store) (eff : WriteEffect) : Store :=
  fun f => if f = eff.file then some eff.record else st f

/-- Per-call parameters of `update_status` that vary across a sequence of
invocations sharing one workspace (same cwd, git state, environment). -/
structure WriteArgs where
  now : Nat
  status : String
  tool_name : Option String
  session_id : Option String
  event : Option String
  cwd : Option String

/-- Run a sequence of `update_status` calls against the store. -/
def runWrites (env : Env) (git : GitEnv) (osCwd : String) : Store → List WriteArgs → Store
  | st, [] => st
  | st, a :: rest =>
      runWrites env git osCwd
        (applyWrite st
          (update_status a.now env git osCwd a.status a.tool_name a.session_id a.event a.cwd))
        rest

/-- Status component of an outcome. -/
def statusOf : MainOutcome → Option String
  | .noWrite => none
  | .wrote eff => some eff.record.status

/-- Does the char list contain an ASCII lowercase letter? -/
def containsLower (cs : List Char) : Bool := cs.any Char.isLower

/-! Helper lemmas shared by the claim theorems. -/

lemma data_isEmpty_true_iff (s : String) : s.data.isEmpty = true ↔ s = "" := by
  obtain ⟨d⟩ := s
  constructor
  · intro h
    have hd : d = [] := by simpa using h
    simp [hd]
  · intro h
    have hd : d = [] := congrArg String.data h
    simp [hd]

lemma data_isEmpty_false_iff (s : String) : s.data.isEmpty = false ↔ s ≠ "" := by
  rw [← Bool.not_eq_true, not_iff_not]
  exact data_isEmpty_true_iff s

lemma pyIsUpper_eq_false_of_lower {cs : List Char} (h : containsLower cs = true) :
    pyIsUpper cs = false := by
  obtain ⟨c, hc, hlow⟩ := List.any_eq_true.mp h
  apply Bool.and_eq_false_iff.mpr
  right
  apply Bool.not_eq_true _ |>.mp
  intro hall
  have := List.all_eq_true.mp hall c hc
  simp [hlow] at this

lemma isIssueSegmentStatus_false_of_lower {p : String}
    (h : containsChar '-' p = true → containsLower (beforeFirst '-' p.data) = true) :
    isIssueSegmentStatus p = false := by
  by_cases hc : containsChar '-' p = true
  · have hup := pyIsUpper_eq_false_of_lower (h hc)
    simp [isIssueSegmentStatus, hup]
  · simp [isIssueSegmentStatus, Bool.eq_false_iff.mpr hc]

lemma isIssueSegmentPlan_false_of_lower {p : String}
    (h : containsChar '-' p = true → containsLower (beforeFirst '-' p.data) = true) :
    isIssueSegmentPlan p = false := by
  by_cases hc : containsChar '-' p = true
  · have hup := pyIsUpper_eq_false_of_lower (h hc)
    simp [isIssueSegmentPlan, hup]
  · simp [isIssueSegmentPlan, Bool.eq_false_iff.mpr hc]

lemma isIssueSegmentStatus_of_plan {p : String} (h : isIssueSegmentPlan p = true) :
    isIssueSegmentStatus p = true := by
  unfold isIssueSegmentPlan at h
  unfold isIssueSegmentStatus
  cases h1 : (!p.data.isEmpty) <;> cases h2 : containsChar '-' p <;>
    cases h3 : pyIsUpper (beforeFirst '-' p.data) <;>
    cases h4 : pyIsAlpha (beforeFirst '-' p.data) <;>
    cases h5 : pyIsDigit (afterFirst '-' p.data) <;> simp_all

lemma find?_of_filter_eq_singleton {α : Type} {f : α → Bool} :
    ∀ {l : List α} {p : α}, l.filter f = [p] → l.find? f = some p := by
  intro l
  induction l with
  | nil => intro p h; simp at h
  | cons a rest ih =>
    intro p h
    by_cases hfa : f a = true
    · rw [List.filter_cons_of_pos hfa] at h
      obtain ⟨h1, _⟩ := List.cons_eq_cons.mp h
      rw [List.find?_cons_of_pos _ hfa, h1]
    · rw [List.filter_cons_of_neg (by simpa using hfa)] at h
      rw [List.find?_cons_of_neg _ hfa]
      exact ih h

lemma find?_eq_some_of_unique {α : Type} {g : α → Bool} :
    ∀ {l : List α} {p : α}, p ∈ l → g p = true → (∀ x ∈ l, g x = true → x = p) →
      l.find? g = some p := by
  intro l
  induction l with
  | nil => intro p hp; simp at hp
  | cons a rest ih =>
    intro p hp hg hu
    by_cases hga : g a = true
    · rw [List.find?_cons_of_pos _ hga, hu a (List.mem_cons_self a rest) hga]
    · rw [List.find?_cons_of_neg _ hga]
      have hpa : p ≠ a := fun h => hga (h ▸ hg)
      have : p ∈ rest := by
        rcases List.mem_cons.mp hp with h | h
        · exact absurd h hpa
        · exact h
      exact ih this hg fun x hx hgx => hu x (List.mem_cons_of_mem _ hx) hgx

lemma append_hyphen_ne_empty (a b : String) : a ++ "-" ++ b ≠ "" := by
  intro h
  have hd : (a ++ "-" ++ b).data = "".data := congrArg String.data h
  rw [String.data_append, String.data_append] at hd
  simp at hd

lemma gitFallbackName_ne_empty (git : GitEnv) : gitFallbackName git ≠ "" := by
  unfold gitFallbackName
  cases git.branch with
  | none => simp
  | some out =>
    cases hbe : (pyStrip out).data.isEmpty with
    | true => simp [hbe]
    | false =>
      simp only [hbe, Bool.false_eq_true, if_false]
      cases git.toplevel with
      | none => exact (data_isEmpty_false_iff _).mp hbe
      | some tout =>
        cases hre : (basename (pyStrip tout)).data.isEmpty with
        | true => simp only [hre, if_true]; exact (data_isEmpty_false_iff _).mp hbe
        | false =>
          simp only [hre, Bool.false_eq_true, if_false]
          exact append_hyphen_ne_empty _ _

/-- C1 (amended): splitting a path segment once on its first hyphen, the plan
hook's resolver (`get_issue_key`) treats it as an issue key only when the part
before the hyphen additionally has length ≥ 2, so segments with a lowercase
prefix (`sta-123`) are skipped by both resolvers, but the status hook's
resolver (`get_workspace_name`) has no minimum-length requirement and does
treat single-character uppercase prefixes such as `X-99` as issue keys. -/
theorem resolver_prefix_policy :
    (∀ (cwd : String) (git : GitEnv),
        (∀ p ∈ splitChar '/' cwd,
            containsChar '-' p = true → containsLower (beforeFirst '-' p.data) = true) →
        get_workspace_name cwd git = gitFallbackName git ∧ get_issue_key cwd = none)
  ∧ (∀ part : String, (beforeFirst '-' part.data).length < 2 → isIssueSegmentPlan part = false)
  ∧ isIssueSegmentStatus "X-99" = true := by
  refine ⟨?_, ?_, by decide⟩
  · intro cwd git h
    constructor
    · have hn : (splitChar '/' cwd).find? isIssueSegmentStatus = none :=
        List.find?_eq_none.mpr fun x hx => by
          simp [isIssueSegmentStatus_false_of_lower (h x hx)]
      unfold get_workspace_name
      rw [hn]
    · exact List.find?_eq_none.mpr fun x hx => by
        simp [isIssueSegmentPlan_false_of_lower (h x (List.mem_reverse.mp hx))]
  · intro part hlen
    have hd : (decide (2 ≤ (beforeFirst '-' part.data).length)) = false := by
      simp [Nat.not_le.mpr hlen]
    simp [isIssueSegmentPlan, hd]

/-- C1 counterexample: the working directory
`/Users/charlie/.worktrees/stardust-labs/X-99` has only hyphenated segments
with a lowercase (`stardust-labs`) or single-character (`X-99`) prefix, yet
`get_workspace_name` does return `X-99` as the identifier, refuting the claim
that identity resolution never returns such a segment (the plan hook's
resolver, which checks the length, indeed finds no key there). -/
theorem resolver_prefix_policy_cex :
    get_workspace_name "/Users/charlie/.worktrees/stardust-labs/X-99" ⟨none, none⟩ = "X-99"
  ∧ get_issue_key "/Users/charlie/.worktrees/stardust-labs/X-99" = none := by decide

/-- Witness for `resolver_prefix_policy` at the lowercase fixture `sta-123`. -/
theorem resolver_prefix_policy_witness :
    get_workspace_name "/Users/charlie/.worktrees/stardust-labs/sta-123" ⟨none, none⟩ =
      gitFallbackName ⟨none, none⟩
  ∧ get_issue_key "/Users/charlie/.worktrees/stardust-labs/sta-123" = none :=
  resolver_prefix_policy.1 "/Users/charlie/.worktrees/stardust-labs/sta-123" ⟨none, none⟩
    (by decide)

/-- C4: when no path segment is issue-key-shaped, the identifier falls down
the chain: branch query failed → `unknown`; branch known but toplevel query
failed or yielding an empty basename → the branch alone; both known →
`<repo-basename>-<branch>`.  The resolver is a total function, so resolution
always terminates with some identifier string. -/
theorem fallback_chain (cwd : String) (git : GitEnv)
    (hseg : ∀ p ∈ splitChar '/' cwd, isIssueSegmentStatus p = false) :
    (git.branch = none → get_workspace_name cwd git = "unknown")
  ∧ (∀ out, git.branch = some out → pyStrip out ≠ "" →
      (git.toplevel = none → get_workspace_name cwd git = pyStrip out)
    ∧ (∀ tout, git.toplevel = some tout → basename (pyStrip tout) = "" →
        get_workspace_name cwd git = pyStrip out)
    ∧ (∀ tout, git.toplevel = some tout → basename (pyStrip tout) ≠ "" →
        get_workspace_name cwd git = basename (pyStrip tout) ++ "-" ++ pyStrip out)) := by
  have hn : (splitChar '/' cwd).find? isIssueSegmentStatus = none :=
    List.find?_eq_none.mpr fun x hx => by simp [hseg x hx]
  have hw : get_workspace_name cwd git = gitFallbackName git := by
    unfold get_workspace_name
    rw [hn]
  constructor
  · intro hb
    rw [hw]
    unfold gitFallbackName
    rw [hb]
  · intro out hb hne
    have hbe : (pyStrip out).data.isEmpty = false := (data_isEmpty_false_iff _).mpr hne
    refine ⟨?_, ?_, ?_⟩
    · intro ht
      rw [hw]
      unfold gitFallbackName
      rw [hb, ht]
      simp [hbe]
    · intro tout ht hre
      have hree : (basename (pyStrip tout)).data.isEmpty = true :=
        (data_isEmpty_true_iff _).mpr hre
      rw [hw]
      unfold gitFallbackName
      rw [hb, ht]
      simp [hbe, hree]
    · intro tout ht hre
      have hree : (basename (pyStrip tout)).data.isEmpty = false :=
        (data_isEmpty_false_iff _).mpr hre
      rw [hw]
      unfold gitFallbackName
      rw [hb, ht]
      simp [hbe, hree]

/-- Witness for `fallback_chain`: branch `master`, toplevel `/home/u/proj`. -/
theorem fallback_chain_witness :
    get_workspace_name "/home/u/proj" ⟨some "master\n", some "/home/u/proj\n"⟩ =
      "proj-master" := by
  have h := ((fallback_chain "/home/u/proj" ⟨some "master\n", some "/home/u/proj\n"⟩
      (by decide)).2 "master\n" rfl (by decide)).2.2 "/home/u/proj\n" rfl (by decide)
  rw [h]
  decide

/-- C9: when the branch query exits 0 but prints only whitespace, resolution
does not depend on the toplevel query and falls through to `unknown`; in
general `get_workspace_name` never returns the empty string. -/
theorem empty_branch_unknown :
    (∀ (cwd out : String) (tl tl' : Option String),
        pyStrip out = "" →
        get_workspace_name cwd ⟨some out, tl⟩ = get_workspace_name cwd ⟨some out, tl'⟩
      ∧ ((∀ p ∈ splitChar '/' cwd, isIssueSegmentStatus p = false) →
          get_workspace_name cwd ⟨some out, tl⟩ = "unknown"))
  ∧ (∀ (cwd : String) (git : GitEnv), get_workspace_name cwd git ≠ "") := by
  constructor
  · intro cwd out tl tl' hstrip
    have hbe : (pyStrip out).data.isEmpty = true := (data_isEmpty_true_iff _).mpr hstrip
    have hfb : ∀ t : Option String, gitFallbackName ⟨some out, t⟩ = "unknown" := by
      intro t
      unfold gitFallbackName
      simp [hbe]
    constructor
    · unfold get_workspace_name
      cases hf : (splitChar '/' cwd).find? isIssueSegmentStatus
      · simp [hfb]
      · rfl
    · intro hseg
      have hn : (splitChar '/' cwd).find? isIssueSegmentStatus = none :=
        List.find?_eq_none.mpr fun x hx => by simp [hseg x hx]
      unfold get_workspace_name
      rw [hn]
      exact hfb tl
  · intro cwd git
    unfold get_workspace_name
    cases hf : (splitChar '/' cwd).find? isIssueSegmentStatus with
    | some part =>
      have hp := List.find?_some hf
      have hne : part.data.isEmpty = false := by
        unfold isIssueSegmentStatus at hp
        cases he : part.data.isEmpty <;> simp_all
      exact (data_isEmpty_false_iff _).mp hne
    | none => exact gitFallbackName_ne_empty git

/-- Witness for `empty_branch_unknown`: branch query printing only a newline. -/
theorem empty_branch_unknown_witness :
    get_workspace_name "/home/u/proj" ⟨some "\n", some "/x\n"⟩ = "unknown" :=
  (empty_branch_unknown.1 "/home/u/proj" "\n" (some "/x\n") none (by decide)).2 (by decide)

lemma main_noWrite {argv : List String} (d : StdinData) (env : Env) (git : GitEnv)
    (osCwd : String) (now : Nat) (hargv : argv.length ≤ 1)
    (h : derive_status (d.hook_event_name.getD "") d.notification_type = none) :
    main argv (.parsed d) env git osCwd now = .noWrite := by
  unfold main
  rw [if_neg (by omega)]
  simp [readStdin, h]

lemma main_writes {argv : List String} (d : StdinData) (env : Env) (git : GitEnv)
    (osCwd : String) (now : Nat) (s : String) (hargv : argv.length ≤ 1)
    (h : derive_status (d.hook_event_name.getD "") d.notification_type = some s) :
    main argv (.parsed d) env git osCwd now =
      .wrote (update_status now env git osCwd s d.tool_name
        (match d.session_id with
         | some x => some x
         | none => env.claude_session_id)
        d.hook_event_name d.cwd) := by
  unfold main
  rw [if_neg (by omega)]
  simp [readStdin, h]

/-- C2: the event-to-status chain is a total function on (event kind,
notification subtype) agreeing with the table of §4.2; the status written by
`main` never depends on the accompanying tool name, and for `PostToolUse` /
`PermissionRequest` the (nonempty) tool name is still recorded in the
written record's `currentTool` field. -/
theorem status_table_total :
    (∀ nt, derive_status "UserPromptSubmit" nt = some "processing")
  ∧ (∀ nt, derive_status "PreToolUse" nt = some "running_tool")
  ∧ (∀ nt, derive_status "PostToolUse" nt = some "processing")
  ∧ (∀ nt, derive_status "PermissionRequest" nt = some "waiting_for_approval")
  ∧ (∀ nt, derive_status "Stop" nt = some "waiting_for_input")
  ∧ (∀ nt, derive_status "SubagentStop" nt = some "waiting_for_input")
  ∧ (∀ nt, derive_status "SessionStart" nt = some "waiting_for_input")
  ∧ (∀ nt, derive_status "SessionEnd" nt = some "ended")
  ∧ (∀ nt, derive_status "PreCompact" nt = some "compacting")
  ∧ (∀ (p : String) (d : StdinData) (t t' : Option String) (env : Env) (git : GitEnv)
        (osCwd : String) (now : Nat),
        statusOf (main [p] (.parsed { d with tool_name := t }) env git osCwd now) =
        statusOf (main [p] (.parsed { d with tool_name := t' }) env git osCwd now))
  ∧ (∀ (p : String) (d : StdinData) (t : String) (env : Env) (git : GitEnv)
        (osCwd : String) (now : Nat),
        d.hook_event_name = some "PostToolUse" ∨ d.hook_event_name = some "PermissionRequest" →
        t ≠ "" →
        ∃ eff, main [p] (.parsed { d with tool_name := some t }) env git osCwd now = .wrote eff
          ∧ eff.record.currentTool = some t
          ∧ eff.record.status =
              (if d.hook_event_name = some "PostToolUse" then "processing"
               else "waiting_for_approval")) := by
  refine ⟨fun nt => rfl, fun nt => rfl, fun nt => rfl, fun nt => rfl, fun nt => rfl,
    fun nt => rfl, fun nt => rfl, fun nt => rfl, fun nt => rfl, ?_, ?_⟩
  · intro p d t t' env git osCwd now
    cases hds : derive_status (d.hook_event_name.getD "") d.notification_type with
    | none =>
      rw [main_noWrite { d with tool_name := t } env git osCwd now (by simp) hds,
        main_noWrite { d with tool_name := t' } env git osCwd now (by simp) hds]
    | some s =>
      rw [main_writes { d with tool_name := t } env git osCwd now s (by simp) hds,
        main_writes { d with tool_name := t' } env git osCwd now s (by simp) hds]
      simp [statusOf, update_status]
  · intro p d t env git osCwd now hev ht
    have htb : t.data.isEmpty = false := (data_isEmpty_false_iff t).mpr ht
    rcases hev with h | h
    · have hds : derive_status
          (({ d with tool_name := some t } : StdinData).hook_event_name.getD "")
          ({ d with tool_name := some t } : StdinData).notification_type = some "processing" := by
        rw [show ({ d with tool_name := some t } : StdinData).hook_event_name =
          some "PostToolUse" from h]
        rfl
      refine ⟨_, main_writes _ _ _ _ _ _ (by simp) hds, ?_, ?_⟩
      · simp [update_status, truthyOpt, htb]
      · rw [h]
        simp [update_status]
    · have hds : derive_status
          (({ d with tool_name := some t } : StdinData).hook_event_name.getD "")
          ({ d with tool_name := some t } : StdinData).notification_type =
            some "waiting_for_approval" := by
        rw [show ({ d with tool_name := some t } : StdinData).hook_event_name =
          some "PermissionRequest" from h]
        rfl
      refine ⟨_, main_writes _ _ _ _ _ _ (by simp) hds, ?_, ?_⟩
      · simp [update_status, truthyOpt, htb]
      · rw [h]
        simp [update_status]

/-- Witness for `status_table_total`: a `PostToolUse` event naming `Bash`. -/
theorem status_table_total_witness :
    ∃ eff, main ["update-status.py"]
        (.parsed ⟨some "PostToolUse", some "Bash", none, none, none⟩)
        ⟨none, none, "/home/u"⟩ ⟨none, none⟩ "/w/STA-1" 7 = .wrote eff
      ∧ eff.record.currentTool = some "Bash"
      ∧ eff.record.status = "processing" := by
  have h := status_table_total.2.2.2.2.2.2.2.2.2.2 "update-status.py"
      ⟨some "PostToolUse", none, none, none, none⟩ "Bash" ⟨none, none, "/home/u"⟩ ⟨none, none⟩
      "/w/STA-1" 7 (Or.inl rfl) (by decide)
  simpa using h

lemma derive_status_none_of_unknown (e : String) (nt : Option String)
    (h : e ∉ (["UserPromptSubmit", "PreToolUse", "PostToolUse", "PermissionRequest", "Stop",
        "SubagentStop", "SessionStart", "SessionEnd", "PreCompact",
        "Notification"] : List String)) :
    derive_status e nt = none := by
  simp only [List.mem_cons, not_or, List.not_mem_nil] at h
  obtain ⟨h1, h2, h3, h4, h5, h6, h7, h8, h9, h10, -⟩ := h
  simp [derive_status, h1, h2, h3, h4, h5, h6, h7, h8, h9, h10]

/-- C3: with no command-line override, a `Notification` of subtype
`permission_prompt` produces no write; subtype `idle_prompt` writes status
`waiting_for_input`; any other subtype, any unrecognised event kind, and
malformed or empty stdin each produce no write.  `main` is a total function,
so every such invocation terminates (the script exits 0 on all paths). -/
theorem dispatch_ignore_paths (argv : List String) (env : Env) (git : GitEnv)
    (osCwd : String) (now : Nat) (hargv : argv.length ≤ 1) :
    (∀ d : StdinData, d.hook_event_name = some "Notification" →
        d.notification_type = some "permission_prompt" →
        main argv (.parsed d) env git osCwd now = .noWrite)
  ∧ (∀ d : StdinData, d.hook_event_name = some "Notification" →
        d.notification_type = some "idle_prompt" →
        statusOf (main argv (.parsed d) env git osCwd now) = some "waiting_for_input")
  ∧ (∀ d : StdinData, d.hook_event_name = some "Notification" →
        d.notification_type ≠ some "permission_prompt" →
        d.notification_type ≠ some "idle_prompt" →
        main argv (.parsed d) env git osCwd now = .noWrite)
  ∧ (∀ (d : StdinData) (e : String), d.hook_event_name = some e →
        e ∉ (["UserPromptSubmit", "PreToolUse", "PostToolUse", "PermissionRequest", "Stop",
            "SubagentStop", "SessionStart", "SessionEnd", "PreCompact",
            "Notification"] : List String) →
        main argv (.parsed d) env git osCwd now = .noWrite)
  ∧ main argv .malformed env git osCwd now = .noWrite := by
  refine ⟨?_, ?_, ?_, ?_, ?_⟩
  · intro d hev hnt
    apply main_noWrite _ _ _ _ _ hargv
    rw [hev, hnt]
    rfl
  · intro d hev hnt
    rw [main_writes d env git osCwd now "waiting_for_input" hargv
      (by rw [hev, hnt]; rfl)]
    simp [statusOf, update_status]
  · intro d hev hnt1 hnt2
    apply main_noWrite _ _ _ _ _ hargv
    rw [hev]
    simp [derive_status, hnt1, hnt2]
  · intro d e hev hmem
    apply main_noWrite _ _ _ _ _ hargv
    rw [hev]
    exact derive_status_none_of_unknown e d.notification_type hmem
  · unfold main
    rw [if_neg (by omega)]
    rfl

/-- Witness for `dispatch_ignore_paths`: malformed stdin, no write. -/
theorem dispatch_ignore_paths_witness :
    main ["update-status.py"] .malformed ⟨none, none, "/home/u"⟩ ⟨none, none⟩ "/w" 3 =
      .noWrite :=
  (dispatch_ignore_paths ["update-status.py"] ⟨none, none, "/home/u"⟩ ⟨none, none⟩ "/w" 3
    (by decide)).2.2.2.2

/-- C7: when a status string is supplied as the first command-line argument,
derivation is bypassed and that exact string is written (no validation),
together with the optionally supplied `--tool` name, for every stdin content
including malformed or empty input. -/
theorem override_verbatim (p st : String) (rest : List String) (stdinC : StdinContent)
    (env : Env) (git : GitEnv) (osCwd : String) (now : Nat) :
    ∃ eff, main (p :: st :: rest) stdinC env git osCwd now = .wrote eff
      ∧ eff.record.status = st
      ∧ eff.record.currentTool = truthyOpt (parse_tool_arg (p :: st :: rest)) := by
  have hm : main (p :: st :: rest) stdinC env git osCwd now =
      .wrote (update_status now env git osCwd st (parse_tool_arg (p :: st :: rest))
        (match (readStdin stdinC).session_id with
         | some x => some x
         | none => env.claude_session_id)
        (readStdin stdinC).hook_event_name (readStdin stdinC).cwd) := by
    unfold main
    rw [if_pos (by simp only [List.length_cons]; omega)]
    simp
  exact ⟨_, hm, by simp [update_status], by simp [update_status]⟩

/-- C10: when `--tool` occurs in `argv` with its first occurrence as the last
argument, the guarded index access yields no tool name, parsing does not
fail, and the written record carries no `currentTool` field. -/
theorem tool_flag_guard (argv : List String) (i : Nat) (stdinC : StdinContent)
    (env : Env) (git : GitEnv) (osCwd : String) (now : Nat)
    (hidx : listIndexOf argv "--tool" = some i) (hlast : i + 1 = argv.length) :
    parse_tool_arg argv = none
  ∧ (1 < argv.length →
      ∃ eff, main argv stdinC env git osCwd now = .wrote eff
        ∧ eff.record.currentTool = none) := by
  have hget : argv[i + 1]? = none := List.getElem?_eq_none (by omega)
  have hpt : parse_tool_arg argv = none := by
    unfold parse_tool_arg
    rw [hidx]
    exact hget
  refine ⟨hpt, ?_⟩
  intro hlen
  have hm : main argv stdinC env git osCwd now =
      .wrote (update_status now env git osCwd ((argv[1]?).getD "") (parse_tool_arg argv)
        (match (readStdin stdinC).session_id with
         | some x => some x
         | none => env.claude_session_id)
        (readStdin stdinC).hook_event_name (readStdin stdinC).cwd) := by
    unfold main
    rw [if_pos hlen]
  exact ⟨_, hm, by simp [update_status, hpt, truthyOpt]⟩

/-- Witness for `tool_flag_guard`: `--tool` dangling as the last argument. -/
theorem tool_flag_guard_witness :
    parse_tool_arg ["update-status.py", "waiting_for_input", "--tool"] = none
  ∧ ∃ eff, main ["update-status.py", "waiting_for_input", "--tool"] .malformed
        ⟨none, none, "/home/u"⟩ ⟨none, none⟩ "/w" 3 = .wrote eff
      ∧ eff.record.currentTool = none := by
  have h := tool_flag_guard ["update-status.py", "waiting_for_input", "--tool"] 2 .malformed
      ⟨none, none, "/home/u"⟩ ⟨none, none⟩ "/w" 3 (by decide) (by decide)
  exact ⟨h.1, h.2 (by decide)⟩

/-- C5 counterexample: `/repo/X-9/STA-123` contains exactly one issue-key
shaped segment in the spec's sense (`STA-123`; `X-9` has a one-character
prefix), the leaf-to-root policy (`get_issue_key`) returns it, but the
root-to-leaf policy (`get_workspace_name`) returns `X-9` instead — so the
two policies do not both return the unique issue-key-shaped segment. -/
theorem scan_order_policies_cex :
    (splitChar '/' "/repo/X-9/STA-123").filter isIssueSegmentPlan = ["STA-123"]
  ∧ get_issue_key "/repo/X-9/STA-123" = some "STA-123"
  ∧ get_workspace_name "/repo/X-9/STA-123" ⟨none, none⟩ = "X-9"
  ∧ ("X-9" : String) ≠ "STA-123" := by decide

/-- C5 (amended): for every working directory in which exactly one segment
is accepted by the status hook's (looser) matcher, provided that segment
also satisfies the plan hook's length-≥-2 requirement, both scan orders
return it unchanged; and on the two-key fixture `.../MY-5/STA-123` the two
policies disagree by construction: leaf-to-root (`get_issue_key`) returns
`STA-123` while root-to-leaf (`get_workspace_name`) returns `MY-5`. -/
theorem scan_order_policies :
    (∀ (cwd p : String) (git : GitEnv),
        (splitChar '/' cwd).filter isIssueSegmentStatus = [p] →
        isIssueSegmentPlan p = true →
        get_workspace_name cwd git = p ∧ get_issue_key cwd = some p)
  ∧ get_workspace_name "/Users/u/.worktrees/MY-5/STA-123" ⟨none, none⟩ = "MY-5"
  ∧ get_issue_key "/Users/u/.worktrees/MY-5/STA-123" = some "STA-123"
  ∧ ("MY-5" : String) ≠ "STA-123" := by
  refine ⟨?_, by decide, by decide, by decide⟩
  intro cwd p git hfilter hplan
  constructor
  · unfold get_workspace_name
    rw [find?_of_filter_eq_singleton hfilter]
  · unfold get_issue_key
    have hmem' : p ∈ (splitChar '/' cwd).filter isIssueSegmentStatus := by
      rw [hfilter]
      exact List.mem_singleton_self p
    have hmem : p ∈ splitChar '/' cwd := List.mem_of_mem_filter hmem'
    have huniq : ∀ x ∈ (splitChar '/' cwd).reverse, isIssueSegmentPlan x = true → x = p := by
      intro x hx hgx
      have hxl : x ∈ splitChar '/' cwd := List.mem_reverse.mp hx
      have hxf : x ∈ (splitChar '/' cwd).filter isIssueSegmentStatus :=
        List.mem_filter.mpr ⟨hxl, isIssueSegmentStatus_of_plan hgx⟩
      rw [hfilter] at hxf
      simpa using hxf
    exact find?_eq_some_of_unique (List.mem_reverse.mpr hmem) hplan huniq

/-- Witness for `scan_order_policies` at a one-key worktree path. -/
theorem scan_order_policies_witness :
    get_workspace_name "/Users/charlie/.worktrees/stardust-labs/STA-123/hooks" ⟨none, none⟩ =
      "STA-123"
  ∧ get_issue_key "/Users/charlie/.worktrees/stardust-labs/STA-123/hooks" = some "STA-123" :=
  scan_order_policies.1 "/Users/charlie/.worktrees/stardust-labs/STA-123/hooks" "STA-123"
    ⟨none, none⟩ (by decide) (by decide)

lemma update_status_file (now : Nat) (env : Env) (git : GitEnv) (osCwd : String)
    (status : String) (t sid e c : Option String) :
    (update_status now env git osCwd status t sid e c).file =
      get_status_dir env ++ "/" ++ get_workspace_name osCwd git ++ ".json" := rfl

lemma runWrites_append_singleton (env : Env) (git : GitEnv) (osCwd : String)
    (st : Store) (args : List WriteArgs) (a : WriteArgs) :
    runWrites env git osCwd st (args ++ [a]) =
      applyWrite (runWrites env git osCwd st args)
        (update_status a.now env git osCwd a.status a.tool_name a.session_id a.event a.cwd) := by
  induction args generalizing st with
  | nil => rfl
  | cons x rest ih => simp [runWrites, ih]

lemma runWrites_frame (env : Env) (git : GitEnv) (osCwd : String)
    (st : Store) (l : List WriteArgs) (f : String)
    (hf : f ≠ get_status_dir env ++ "/" ++ get_workspace_name osCwd git ++ ".json") :
    runWrites env git osCwd st l f = st f := by
  induction l generalizing st with
  | nil => rfl
  | cons a rest ih =>
    rw [runWrites, ih]
    unfold applyWrite
    rw [update_status_file, if_neg hf]

/-- C6: after any sequence of `update_status` writes for one workspace
identifier ending in write `a`, the store holds exactly the record assembled
from `a` at that identifier's file, every other key is untouched, and the
record's optional fields (`currentTool`, `event`, `cwd`) are present exactly
when `a` supplied them — nothing from earlier writes survives. -/
theorem last_write_wins (env : Env) (git : GitEnv) (osCwd : String) (st0 : Store)
    (args : List WriteArgs) (a : WriteArgs) :
    (runWrites env git osCwd st0 (args ++ [a]))
        (get_status_dir env ++ "/" ++ get_workspace_name osCwd git ++ ".json") =
      some (update_status a.now env git osCwd a.status a.tool_name a.session_id
        a.event a.cwd).record
  ∧ (∀ f, f ≠ get_status_dir env ++ "/" ++ get_workspace_name osCwd git ++ ".json" →
      runWrites env git osCwd st0 (args ++ [a]) f = st0 f)
  ∧ (update_status a.now env git osCwd a.status a.tool_name a.session_id
        a.event a.cwd).record =
      { sessionId := orDefault a.session_id (env.claude_session_id.getD "unknown")
        workspaceName := get_workspace_name osCwd git
        status := a.status
        lastUpdate := a.now
        currentTool := truthyOpt a.tool_name
        event := truthyOpt a.event
        cwd := truthyOpt a.cwd } := by
  refine ⟨?_, ?_, rfl⟩
  · rw [runWrites_append_singleton]
    unfold applyWrite
    rw [update_status_file, if_pos rfl]
  · intro f hf
    exact runWrites_frame env git osCwd st0 _ f hf

/-- Witness for `last_write_wins`: two writes, the second omitting the tool;
a foreign key of the store is untouched. -/
theorem last_write_wins_witness :
    runWrites ⟨some "/tmp/s", none, "/home/u"⟩ ⟨none, none⟩ "/w/STA-7" (fun _ => none)
        ([⟨1, "processing", some "Bash", some "sess", some "PreToolUse", some "/w/STA-7"⟩] ++
          [⟨2, "waiting_for_input", none, none, some "Stop", none⟩]) "/tmp/s/unknown.json" =
      (fun _ => none : Store) "/tmp/s/unknown.json" :=
  (last_write_wins ⟨some "/tmp/s", none, "/home/u"⟩ ⟨none, none⟩ "/w/STA-7" (fun _ => none)
    [⟨1, "processing", some "Bash", some "sess", some "PreToolUse", some "/w/STA-7"⟩]
    ⟨2, "waiting_for_input", none, none, some "Stop", none⟩).2.1
    "/tmp/s/unknown.json" (by decide)

/-- C8: the write target is the deterministic path
`<store-root>/<identifier>.json`, where the store root comes from
`PAPPARDELLE_STATUS_DIR` when set and nonempty and from the home-directory
default otherwise; the call also ensures the store root exists; and a write
replaces only its own key — in particular a write for identifier
`stardust-labs-master` touches neither `master.json` nor `unknown.json`. -/
theorem store_location_frame :
    (∀ (env : Env) (git : GitEnv) (osCwd : String) (now : Nat) (status : String)
        (t sid e c : Option String),
        (update_status now env git osCwd status t sid e c).file =
          get_status_dir env ++ "/" ++ get_workspace_name osCwd git ++ ".json"
      ∧ (update_status now env git osCwd status t sid e c).ensuredDir = get_status_dir env)
  ∧ (∀ (d : String) (env : Env), env.pappardelle_status_dir = some d → d ≠ "" →
      get_status_dir env = d)
  ∧ (∀ env : Env, env.pappardelle_status_dir = none →
      get_status_dir env = env.home ++ "/.pappardelle/claude-status")
  ∧ (∀ (st : Store) (eff : WriteEffect) (f : String), f ≠ eff.file →
      applyWrite st eff f = st f)
  ∧ ((update_status 5 ⟨some "/tmp/status", none, "/home/u"⟩
        ⟨some "master\n", some "/Users/charlie/cs/stardust-labs\n"⟩
        "/Users/charlie/cs/stardust-labs" "waiting_for_input" none none none none).file =
      "/tmp/status/stardust-labs-master.json"
    ∧ (update_status 5 ⟨some "/tmp/status", none, "/home/u"⟩
        ⟨some "master\n", some "/Users/charlie/cs/stardust-labs\n"⟩
        "/Users/charlie/cs/stardust-labs" "waiting_for_input" none none none none).ensuredDir =
      "/tmp/status"
    ∧ ∀ st : Store,
        applyWrite st (update_status 5 ⟨some "/tmp/status", none, "/home/u"⟩
            ⟨some "master\n", some "/Users/charlie/cs/stardust-labs\n"⟩
            "/Users/charlie/cs/stardust-labs" "waiting_for_input" none none none none)
          "/tmp/status/master.json" = st "/tmp/status/master.json"
      ∧ applyWrite st (update_status 5 ⟨some "/tmp/status", none, "/home/u"⟩
            ⟨some "master\n", some "/Users/charlie/cs/stardust-labs\n"⟩
            "/Users/charlie/cs/stardust-labs" "waiting_for_input" none none none none)
          "/tmp/status/unknown.json" = st "/tmp/status/unknown.json") := by
  refine ⟨fun env git osCwd now status t sid e c => ⟨rfl, rfl⟩, ?_, fun env h => by
    unfold get_status_dir
    rw [h], ?_, by decide, by decide, ?_⟩
  · intro d env h hne
    unfold get_status_dir
    rw [h]
    simp [(data_isEmpty_false_iff d).mpr hne]
  · intro st eff f hf
    unfold applyWrite
    rw [if_neg hf]
  · intro st
    constructor
    · unfold applyWrite
      rw [if_neg (by decide)]
    · unfold applyWrite
      rw [if_neg (by decide)]

/-- Witness for `store_location_frame`: explicit store root `/x`. -/
theorem store_location_frame_witness :
    get_status_dir ⟨some "/x", none, "/h"⟩ = "/x" :=
  store_location_frame.2.1 "/x" ⟨some "/x", none, "/h"⟩ rfl (by decide)

end Pappardelle
